import Mathlib

/-!
Shallow embedding of `src/bfu.py` (Bluetooth Firmware Update), covering the
frame codec (`prepare_packets`), the per-frame retry protocol (`send_packet`),
the transfer session (`upload_firmware`), the CLI packet-size validator
(`check_size`) and the construction of the updater in `main`.

Bytes are modelled as natural numbers (the theorems that need it assume
`b < 256`); byte strings are `List Nat`.  Machine integers in the Python code
are unbounded `int`s, so `Nat`/`Int` model them exactly; `int.to_bytes`
truncates here, and the theorems stay inside the range where Python would not
raise `OverflowError`.
-/

namespace BFU

/-- Sender-side control bytes of `FirmwareUpdater`. -/
def UPD_BEG : Nat := 0xAA

/-- `UPD_ERR = b'\xEE'`, sent once when a frame exhausts its retry budget. -/
def UPD_ERR : Nat := 0xEE

/-- `UPD_END = b'\xFF'`, sent after all frames are acknowledged. -/
def UPD_END : Nat := 0xFF

/-- Receiver response `PKG_ACK = b'\xFF'`. -/
def PKG_ACK : Nat := 0xFF

/-- Receiver response `PKG_ERR = b'\xEE'` (retry request). -/
def PKG_ERR : Nat := 0xEE

/-- Receiver response `PKG_PAN = b'\xAA'` (abort). -/
def PKG_PAN : Nat := 0xAA

/-- `PKG_SIZE = 2`: width of the length field of a frame. -/
def PKG_SIZE : Nat := 2

/-- `CRC_SIZE = 4`: width of the checksum field of a frame. -/
def CRC_SIZE : Nat := 4

/-- One bit-step of the reflected CRC-32 algorithm (polynomial `0xEDB88320`),
as computed by `zlib.crc32`. -/
def crc32Bit (c : Nat) : Nat :=
  if c % 2 = 1 then (c / 2) ^^^ 0xEDB88320 else c / 2

/-- `n` bit-steps of the CRC-32 register. -/
def crc32Bits : Nat → Nat → Nat
  | 0, c => c
  | n + 1, c => crc32Bits n (crc32Bit c)

/-- `zlib.crc32(data)`: fold each byte into the register with eight bit-steps;
initial register and final xor-out are `0xFFFFFFFF`. -/
def crc32 (data : List Nat) : Nat :=
  (data.foldl (fun c b => crc32Bits 8 (c ^^^ b)) 0xFFFFFFFF) ^^^ 0xFFFFFFFF

/-- `v.to_bytes(n, byteorder='little', signed=False)`.  Python raises
`OverflowError` when `v ≥ 256 ^ n`; this model truncates instead, and every
theorem below stays inside the representable range. -/
def toBytesLE : Nat → Nat → List Nat
  | 0, _ => []
  | n + 1, v => v % 256 :: toBytesLE n (v / 256)

/-- Little-endian decoding, inverse of `toBytesLE` on in-range values. -/
def fromBytesLE : List Nat → Nat
  | [] => 0
  | b :: bs => b + 256 * fromBytesLE bs

/-- One frame as built in the body of the `while` loop of `prepare_packets`:
`bytes(b''.join([ds_byte, crc, dat]))`. -/
def mkFrame (datSize : Nat) (dat : List Nat) : List Nat :=
  toBytesLE PKG_SIZE datSize ++ toBytesLE CRC_SIZE (crc32 dat) ++ dat

/-- The `while size > 0` loop of `prepare_packets`, with the remaining file
contents as a list and an explicit fuel.  Python's loop decreases `size` by
`dat_size = min(self.packsize, size)`; with `packsize = 0` it makes no
progress, which this model renders as `none` for every fuel value. -/
def prepareLoop (packsize : Nat) : Nat → List Nat → Option (List (List Nat))
  | _, [] => some []
  | 0, _ :: _ => none
  | fuel + 1, b :: bs =>
    let rem := b :: bs
    let datSize := min packsize rem.length
    let dat := rem.take datSize
    match prepareLoop packsize fuel (rem.drop datSize) with
    | some frames => some (mkFrame datSize dat :: frames)
    | none => none

/-- `FirmwareUpdater.prepare_packets`, applied to the file contents `data`.
The fuel `data.length` bounds the iteration count whenever `packsize > 0`. -/
def preparePackets (packsize : Nat) (data : List Nat) : Option (List (List Nat)) :=
  prepareLoop packsize data.length data

/-- `self.full_size` after `prepare_packets`: the loop accumulates
`len(result[-1])`, the length of each **whole frame** (header included). -/
def fullSize (packets : List (List Nat)) : Nat :=
  (packets.map List.length).sum

/-- The data part of a frame: everything after the 2-byte length and the
4-byte checksum. -/
def payload (frame : List Nat) : List Nat :=
  frame.drop (PKG_SIZE + CRC_SIZE)

/-- Modelled from the spec: the Transport collaborator (`self.sock`, a
connected RFCOMM `BluetoothSocket` provided by the external `bluetooth`
library, which is not part of this repository).  `rx` is the receiver's
scripted response stream: `some b` is a received byte, `none` is a read
timeout — per the spec's contract `receive(n) -> bytes or timeout`, a timeout
is delivered as a value that compares unequal to every expected response byte.
`tx` logs each `send` call, oldest first. -/
structure Chan where
  rx : List (Option Nat)
  tx : List (List Nat)
deriving DecidableEq

/-- `self.sock.send(bs)`: append to the transmit log. -/
def Chan.send (ch : Chan) (bs : List Nat) : Chan :=
  { ch with tx := ch.tx ++ [bs] }

/-- `self.sock.recv(1)`: pop the next scripted response; an exhausted script
behaves as a timeout. -/
def Chan.recv (ch : Chan) : Option Nat × Chan :=
  match ch.rx with
  | [] => (none, ch)
  | r :: rest => (r, { ch with rx := rest })

/-- The `for i in range(self.attempts)` loop of `send_packet`, by the number
of attempts remaining.  Falling out of the loop sends `UPD_ERR` and returns
`False`; `PKG_ACK` returns `True`; `PKG_PAN` returns `False` immediately
(without sending `UPD_ERR`); anything else consumes the attempt. -/
def sendPacketLoop (packet : List Nat) : Nat → Chan → Bool × Chan
  | 0, ch => (false, ch.send [UPD_ERR])
  | n + 1, ch =>
    let ch1 := ch.send packet
    let (ret, ch2) := ch1.recv
    if ret = some PKG_ACK then (true, ch2)
    else if ret = some PKG_PAN then (false, ch2)
    else sendPacketLoop packet n ch2

/-- `FirmwareUpdater.send_packet` with `self.attempts = attempts`. -/
def sendPacket (attempts : Nat) (packet : List Nat) (ch : Chan) : Bool × Chan :=
  sendPacketLoop packet attempts ch

/-- Outcome of `upload_firmware`: `completed` is a normal return, the other
constructors are the exceptions raised (which the `Context` managers turn
into `exit(1)`). -/
inductive UploadOutcome where
  | completed
  | transferDidNotBegin
  | packetSendError (idx total : Nat)
  | teardownRejected
deriving DecidableEq

/-- `b'firmware_update'`, the handshake identifier string. -/
def idBytes : List Nat :=
  "firmware_update".data.map Char.toNat

/-- The `for i, p in enumerate(self.packets)` loop of `upload_firmware`:
send each packet; on the first `send_packet` failure raise
`'packet %d/%d send error' % (i + 1, ...)`, reported here as `some (i + 1)`.
The progress callback has no effect on protocol behaviour and is omitted. -/
def sendAll (attempts : Nat) : Nat → List (List Nat) → Chan → Option Nat × Chan
  | _, [], ch => (none, ch)
  | i, p :: ps, ch =>
    match sendPacket attempts p ch with
    | (true, ch1) => sendAll attempts (i + 1) ps ch1
    | (false, ch1) => (some (i + 1), ch1)

/-- `FirmwareUpdater.upload_firmware`, given the already-prepared packet list:
handshake (identifier, discarded liveness byte, `UPD_BEG`, required `PKG_ACK`),
then the packet loop, then teardown (`UPD_END`, required `PKG_ACK`). -/
def uploadFirmware (attempts : Nat) (packets : List (List Nat)) (ch : Chan) :
    UploadOutcome × Chan :=
  let ch1 := ch.send idBytes
  let (_, ch2) := ch1.recv
  let ch3 := ch2.send [UPD_BEG]
  let (r, ch4) := ch3.recv
  if r ≠ some PKG_ACK then (.transferDidNotBegin, ch4)
  else
    match sendAll attempts 0 packets ch4 with
    | (some idx, ch5) => (.packetSendError idx packets.length, ch5)
    | (none, ch5) =>
      let ch6 := ch5.send [UPD_END]
      let (r2, ch7) := ch6.recv
      if r2 = some PKG_ACK then (.completed, ch7) else (.teardownRejected, ch7)

/-- `check_size`: `parser.error` aborts the program, modelled as `Except.error`
with the message. -/
def check_size (size : Int) : Except String Int :=
  if size ≤ 0 then .error "Size must be positive!"
  else if size > 512 then .error "Size must be no more than 512!"
  else .ok size

/-- Keyword arguments accepted by `FirmwareUpdater.__init__` via `**kwargs`;
`none` means the key is absent and `kwargs.pop`'s default applies. -/
structure UpdaterKwargs where
  timeout : Option Int := none
  packsize : Option Int := none
  attempts : Option Int := none
  verbose : Option Int := none

/-- `self.attempts = kwargs.pop('attempts', 3)`. -/
def initAttempts (k : UpdaterKwargs) : Int :=
  k.attempts.getD 3

/-- `self.packsize = kwargs.pop('packsize', 512) - CRC_SIZE - PKG_SIZE`. -/
def initPacksize (k : UpdaterKwargs) : Int :=
  k.packsize.getD 512 - (CRC_SIZE : Int) - (PKG_SIZE : Int)

/-- The keyword arguments `main` actually passes when constructing the
updater: `FirmwareUpdater(target, args.path, verbose=args.verbose,
packsize=args.packsize)` — the parsed `--attemtps` value is not among them. -/
def mainUpdaterKwargs (argsVerbose argsPacksize : Int) : UpdaterKwargs :=
  { verbose := some argsVerbose, packsize := some argsPacksize }

/-- A concrete 10-byte firmware source, used by the end-to-end scenarios. -/
def src10 : List Nat := [0, 1, 2, 3, 4, 5, 6, 7, 8, 9]

/-- Scenario A response script: one liveness byte, then `PKG_ACK` to the
`UPD_BEG` marker, to each of the three frames, and to `UPD_END`. -/
def rxA : List (Option Nat) := some 0 :: List.replicate 5 (some PKG_ACK)

/-- Scenario B response script: one liveness byte, `PKG_ACK` to `UPD_BEG`,
then `PKG_PAN` (abort) to the first frame. -/
def rxB : List (Option Nat) := [some 0, some PKG_ACK, some PKG_PAN]

end BFU

namespace BFU

/-! ### Lemmas about the frame codec -/

theorem toBytesLE_length : ∀ n v, (toBytesLE n v).length = n
  | 0, _ => rfl
  | n + 1, v => by simp [toBytesLE, toBytesLE_length n]

theorem payload_mkFrame (ds : Nat) (dat : List Nat) :
    payload (mkFrame ds dat) = dat := rfl

theorem take_mkFrame (ds : Nat) (dat : List Nat) :
    (mkFrame ds dat).take PKG_SIZE = toBytesLE PKG_SIZE ds := rfl

theorem crcField_mkFrame (ds : Nat) (dat : List Nat) :
    ((mkFrame ds dat).drop PKG_SIZE).take CRC_SIZE = toBytesLE CRC_SIZE (crc32 dat) := rfl

theorem fromBytesLE_toBytesLE : ∀ n v, v < 256 ^ n → fromBytesLE (toBytesLE n v) = v
  | 0, v, h => by
    interval_cases v
    rfl
  | n + 1, v, h => by
    have hdiv : v / 256 < 256 ^ n := by
      apply Nat.div_lt_of_lt_mul
      rw [pow_succ] at h
      omega
    simp [toBytesLE, fromBytesLE, fromBytesLE_toBytesLE n (v / 256) hdiv]
    omega

theorem prepareLoop_nil (c : Nat) : ∀ fuel, prepareLoop c fuel [] = some []
  | 0 => rfl
  | _ + 1 => rfl

theorem prepareLoop_roundtrip (c : Nat) (hc : 0 < c) :
    ∀ fuel data, data.length ≤ fuel →
      ∃ frames, prepareLoop c fuel data = some frames ∧
        (frames.map payload).flatten = data := by
  intro fuel
  induction fuel with
  | zero =>
    intro data h
    have hd : data = [] := by cases data <;> simp_all
    subst hd
    exact ⟨[], prepareLoop_nil c 0, rfl⟩
  | succ n ih =>
    intro data h
    cases data with
    | nil => exact ⟨[], prepareLoop_nil c _, rfl⟩
    | cons b bs =>
      have hlen : 0 < (b :: bs).length := by simp
      have hds : 0 < min c (b :: bs).length := lt_min hc hlen
      have hdrop : ((b :: bs).drop (min c (b :: bs).length)).length ≤ n := by
        rw [List.length_drop]
        simp only [List.length_cons] at h ⊢
        omega
      obtain ⟨frames, hfr, hjoin⟩ := ih ((b :: bs).drop (min c (b :: bs).length)) hdrop
      refine ⟨mkFrame (min c (b :: bs).length) ((b :: bs).take (min c (b :: bs).length)) ::
        frames, ?_, ?_⟩
      · simp only [prepareLoop]
        rw [hfr]
      · simp [payload_mkFrame, hjoin]

theorem prepareLoop_zero :
    ∀ fuel (data : List Nat), data ≠ [] → prepareLoop 0 fuel data = none
  | 0, _ :: _, _ => rfl
  | fuel + 1, b :: bs, _ => by
    simp only [prepareLoop, Nat.zero_min, List.take_zero, List.drop_zero]
    rw [prepareLoop_zero fuel (b :: bs) (by simp)]

theorem prepareLoop_shape :
    ∀ fuel (c : Nat) (data : List Nat) (frames : List (List Nat)),
      prepareLoop c fuel data = some frames →
      ∀ f ∈ frames, ∃ dat, dat.length ≤ c ∧ dat ⊆ data ∧ f = mkFrame dat.length dat := by
  intro fuel
  induction fuel with
  | zero =>
    intro c data frames h f hf
    cases data with
    | nil =>
      rw [prepareLoop_nil] at h
      cases h
      simp at hf
    | cons b bs => exact absurd h (by simp [prepareLoop])
  | succ n ih =>
    intro c data frames h f hf
    cases data with
    | nil =>
      rw [prepareLoop_nil] at h
      cases h
      simp at hf
    | cons b bs =>
      simp only [prepareLoop] at h
      revert h
      cases hrec : prepareLoop c n ((b :: bs).drop (min c (b :: bs).length)) with
      | none => intro h; exact absurd h (by simp)
      | some frames' =>
        intro h
        injection h with h
        subst h
        rcases List.mem_cons.mp hf with hhead | htail
        · refine ⟨(b :: bs).take (min c (b :: bs).length), ?_, List.take_subset _ _, ?_⟩
          · rw [List.length_take]
            exact le_trans (min_le_left _ _) (min_le_left _ _)
          · rw [hhead]
            have hl : ((b :: bs).take (min c (b :: bs).length)).length =
                min c (b :: bs).length := by
              rw [List.length_take]
              exact min_eq_left (min_le_right _ _)
            rw [hl]
        · obtain ⟨dat, h1, h2, h3⟩ := ih c _ frames' hrec f htail
          exact ⟨dat, h1, h2.trans (List.drop_subset _ _), h3⟩

/-! ### Bounds on the CRC-32 register -/

theorem xorLt {a b : Nat} (ha : a < 2 ^ 32) (hb : b < 2 ^ 32) : a ^^^ b < 2 ^ 32 :=
  Nat.bitwise_lt ha hb

theorem crc32Bit_lt {c : Nat} (h : c < 2 ^ 32) : crc32Bit c < 2 ^ 32 := by
  unfold crc32Bit
  split
  · exact xorLt (by omega) (by norm_num)
  · omega

theorem crc32Bits_lt : ∀ n {c : Nat}, c < 2 ^ 32 → crc32Bits n c < 2 ^ 32
  | 0, _, h => h
  | n + 1, _, h => crc32Bits_lt n (crc32Bit_lt h)

theorem crc32_lt (data : List Nat) (h : ∀ b ∈ data, b < 256) : crc32 data < 2 ^ 32 := by
  unfold crc32
  refine xorLt ?_ (by norm_num)
  have inv : ∀ (l : List Nat) (acc : Nat), (∀ b ∈ l, b < 256) → acc < 2 ^ 32 →
      l.foldl (fun c b => crc32Bits 8 (c ^^^ b)) acc < 2 ^ 32 := by
    intro l
    induction l with
    | nil => intro acc _ hacc; exact hacc
    | cons b bs ih =>
      intro acc hl hacc
      simp only [List.foldl_cons]
      refine ih _ (fun x hx => hl x (by simp [hx])) ?_
      exact crc32Bits_lt 8 (xorLt hacc (lt_trans (hl b (by simp)) (by norm_num)))
  exact inv data 0xFFFFFFFF h (by norm_num)

/-! ### Lemmas about the per-frame retry loop -/

theorem sendPacketLoop_all_retry :
    ∀ (rs : List (Option Nat)) (packet : List Nat) (rest : List (Option Nat))
      (tx : List (List Nat)),
      (∀ r ∈ rs, r ≠ some PKG_ACK ∧ r ≠ some PKG_PAN) →
      sendPacketLoop packet rs.length ⟨rs ++ rest, tx⟩ =
        (false, ⟨rest, tx ++ List.replicate rs.length packet ++ [[UPD_ERR]]⟩)
  | [], packet, rest, tx, _ => by simp [sendPacketLoop, Chan.send]
  | r :: rs, packet, rest, tx, h => by
    have hr := h r (by simp)
    have ih := sendPacketLoop_all_retry rs packet rest (tx ++ [packet])
      (fun x hx => h x (by simp [hx]))
    simp only [List.length_cons, sendPacketLoop, Chan.send, Chan.recv, List.cons_append]
    rw [if_neg hr.1, if_neg hr.2, ih]
    simp [List.replicate_succ]

theorem sendPacketLoop_ack :
    ∀ (rs : List (Option Nat)) (n : Nat) (packet : List Nat) (rest : List (Option Nat))
      (tx : List (List Nat)),
      (∀ r ∈ rs, r ≠ some PKG_ACK ∧ r ≠ some PKG_PAN) → rs.length < n →
      sendPacketLoop packet n ⟨rs ++ some PKG_ACK :: rest, tx⟩ =
        (true, ⟨rest, tx ++ List.replicate (rs.length + 1) packet⟩)
  | [], n, packet, rest, tx, _, hn => by
    obtain ⟨m, rfl⟩ : ∃ m, n = m + 1 := ⟨n - 1, by omega⟩
    simp [sendPacketLoop, Chan.send, Chan.recv]
  | r :: rs, n, packet, rest, tx, h, hn => by
    obtain ⟨m, rfl⟩ : ∃ m, n = m + 1 := ⟨n - 1, by omega⟩
    have hr := h r (by simp)
    have ih := sendPacketLoop_ack rs m packet rest (tx ++ [packet])
      (fun x hx => h x (by simp [hx])) (by simp only [List.length_cons] at hn; omega)
    simp only [List.length_cons, sendPacketLoop, Chan.send, Chan.recv, List.cons_append]
    rw [if_neg hr.1, if_neg hr.2, ih]
    simp [List.replicate_succ]

theorem sendPacketLoop_abort :
    ∀ (rs : List (Option Nat)) (n : Nat) (packet : List Nat) (rest : List (Option Nat))
      (tx : List (List Nat)),
      (∀ r ∈ rs, r ≠ some PKG_ACK ∧ r ≠ some PKG_PAN) → rs.length < n →
      sendPacketLoop packet n ⟨rs ++ some PKG_PAN :: rest, tx⟩ =
        (false, ⟨rest, tx ++ List.replicate (rs.length + 1) packet⟩)
  | [], n, packet, rest, tx, _, hn => by
    obtain ⟨m, rfl⟩ : ∃ m, n = m + 1 := ⟨n - 1, by omega⟩
    simp [sendPacketLoop, Chan.send, Chan.recv, PKG_ACK, PKG_PAN]
  | r :: rs, n, packet, rest, tx, h, hn => by
    obtain ⟨m, rfl⟩ : ∃ m, n = m + 1 := ⟨n - 1, by omega⟩
    have hr := h r (by simp)
    have ih := sendPacketLoop_abort rs m packet rest (tx ++ [packet])
      (fun x hx => h x (by simp [hx])) (by simp only [List.length_cons] at hn; omega)
    simp only [List.length_cons, sendPacketLoop, Chan.send, Chan.recv, List.cons_append]
    rw [if_neg hr.1, if_neg hr.2, ih]
    simp [List.replicate_succ]

theorem sendPacketLoop_tx_shape :
    ∀ (n : Nat) (packet : List Nat) (ch : Chan),
      ∃ k, k ≤ n ∧ ∃ e, (e = [] ∨ e = [[UPD_ERR]]) ∧
        (sendPacketLoop packet n ch).2.tx = ch.tx ++ List.replicate k packet ++ e
  | 0, packet, ch => ⟨0, le_rfl, [[UPD_ERR]], Or.inr rfl, by simp [sendPacketLoop, Chan.send]⟩
  | n + 1, packet, ch => by
    obtain ⟨rx, tx⟩ := ch
    cases rx with
    | nil =>
      obtain ⟨k, hk, e, he, htx⟩ := sendPacketLoop_tx_shape n packet ⟨[], tx ++ [packet]⟩
      refine ⟨k + 1, by omega, e, he, ?_⟩
      simp only [sendPacketLoop, Chan.send, Chan.recv]
      rw [if_neg (by simp [PKG_ACK]), if_neg (by simp [PKG_PAN])]
      rw [htx]
      simp [List.replicate_succ]
    | cons r rest =>
      by_cases hack : r = some PKG_ACK
      · subst hack
        refine ⟨1, by omega, [], Or.inl rfl, ?_⟩
        simp [sendPacketLoop, Chan.send, Chan.recv]
      · by_cases hpan : r = some PKG_PAN
        · subst hpan
          refine ⟨1, by omega, [], Or.inl rfl, ?_⟩
          simp [sendPacketLoop, Chan.send, Chan.recv, PKG_ACK, PKG_PAN]
        · obtain ⟨k, hk, e, he, htx⟩ := sendPacketLoop_tx_shape n packet ⟨rest, tx ++ [packet]⟩
          refine ⟨k + 1, by omega, e, he, ?_⟩
          simp only [sendPacketLoop, Chan.send, Chan.recv]
          rw [if_neg hack, if_neg hpan]
          rw [htx]
          simp [List.replicate_succ]

/-! ### Lemmas about the transfer session -/

theorem uploadFirmware_first_abort (N : Nat) (hN : 0 < N) (r0 : Option Nat)
    (p : List Nat) (ps : List (List Nat)) :
    uploadFirmware N (p :: ps) ⟨[r0, some PKG_ACK, some PKG_PAN], []⟩ =
      (.packetSendError 1 (ps.length + 1), ⟨[], [idBytes, [UPD_BEG], p]⟩) := by
  obtain ⟨m, rfl⟩ : ∃ m, N = m + 1 := ⟨N - 1, by omega⟩
  have hsp : sendPacketLoop p (m + 1) ⟨[some PKG_PAN], [idBytes, [UPD_BEG]]⟩ =
      (false, ⟨[], [idBytes, [UPD_BEG], p]⟩) := by
    simpa using sendPacketLoop_abort [] (m + 1) p [] [idBytes, [UPD_BEG]] (by simp) (by simp)
  simp [uploadFirmware, Chan.send, Chan.recv, sendAll, sendPacket, hsp]

theorem uploadFirmware_first_exhaust (N : Nat) (r0 : Option Nat) (p : List Nat)
    (ps : List (List Nat)) :
    uploadFirmware N (p :: ps) ⟨r0 :: some PKG_ACK :: List.replicate N (some PKG_ERR), []⟩ =
      (.packetSendError 1 (ps.length + 1),
        ⟨[], [idBytes, [UPD_BEG]] ++ List.replicate N p ++ [[UPD_ERR]]⟩) := by
  have hsp : sendPacketLoop p N ⟨List.replicate N (some PKG_ERR), [idBytes, [UPD_BEG]]⟩ =
      (false, ⟨[], [idBytes, [UPD_BEG]] ++ List.replicate N p ++ [[UPD_ERR]]⟩) := by
    have h := sendPacketLoop_all_retry (List.replicate N (some PKG_ERR)) p []
      [idBytes, [UPD_BEG]]
      (by
        intro r hr
        rw [List.eq_of_mem_replicate hr]
        simp [PKG_ERR, PKG_ACK, PKG_PAN])
    simpa using h
  simp [uploadFirmware, Chan.send, Chan.recv, sendAll, sendPacket, hsp]

end BFU

namespace BFU

/-! ### The claims -/

/-- Claim C1: for every non-empty byte source and every chunk payload size
`c > 0`, `prepare_packets` produces frames whose payloads cover the source
exactly once in order: the payload lengths sum to the source length, and
concatenating the payloads in frame order yields the original source bytes. -/
theorem claim_c1_frames_cover_source (c : Nat) (data : List Nat)
    (hc : 0 < c) (_hne : data ≠ []) :
    ∃ frames, preparePackets c data = some frames ∧
      ((frames.map payload).map List.length).sum = data.length ∧
      (frames.map payload).flatten = data := by
  obtain ⟨frames, h1, h2⟩ := prepareLoop_roundtrip c hc data.length data le_rfl
  refine ⟨frames, h1, ?_, h2⟩
  rw [← List.length_flatten, h2]

/-- Witness for C1 at `c = 4` and the concrete 10-byte source. -/
theorem claim_c1_frames_cover_source_witness :
    ∃ frames, preparePackets 4 src10 = some frames ∧
      ((frames.map payload).map List.length).sum = src10.length ∧
      (frames.map payload).flatten = src10 :=
  claim_c1_frames_cover_source 4 src10 (by decide) (by decide)

/-- Claim C2: in `send_packet` with `self.attempts = N`, a read timeout on the
response byte (modelled as the value `none` returned by the Transport, per the
spec's collaborator contract) consumes one attempt and causes the identical
frame bytes to be resent; a frame whose every attempt times out is sent
exactly `N` times and then reported as failed (returning `False` after sending
`UPD_ERR`), not as a distinct fatal transport error before the budget is
exhausted. -/
theorem claim_c2_timeout_is_retry (N : Nat) (p : List Nat) :
    sendPacket N p ⟨List.replicate N none, []⟩ =
      (false, ⟨[], List.replicate N p ++ [[UPD_ERR]]⟩)
    ∧ ∀ (n : Nat) (rest : List (Option Nat)) (tx : List (List Nat)),
        sendPacketLoop p (n + 1) ⟨none :: rest, tx⟩ = sendPacketLoop p n ⟨rest, tx ++ [p]⟩ := by
  constructor
  · have h := sendPacketLoop_all_retry (List.replicate N none) p [] []
      (by
        intro r hr
        rw [List.eq_of_mem_replicate hr]
        simp)
    simpa [sendPacket] using h
  · intro n rest tx
    simp [sendPacketLoop, Chan.send, Chan.recv, PKG_ACK, PKG_PAN]

end BFU

namespace BFU

/-- Counterexample to Claim C3: in end-to-end scenario B (10-byte source,
`c = 4`, receiver acks the handshake and answers `PKG_PAN` to the first
frame), the transmit log contains zero `UPD_ERR` (`0xEE`) bytes, not exactly
one: `send_packet` returns `False` on `PKG_PAN` without sending `UPD_ERR`. -/
theorem claim_c3_error_byte_counterexample :
    ((preparePackets 4 src10).map fun ps =>
      ((uploadFirmware 3 ps ⟨rxB, []⟩).2).tx.count [UPD_ERR]) = some 0
    ∧ (0 : Nat) ≠ 1 := by decide

/-- Claim C3 as amended: on the first frame failure the session raises
`packet 1/n send error` and sends no further data frames; the `UPD_ERR`
control byte is sent exactly once when the failure is attempts-exhausted
(inside `send_packet`), and not at all when the receiver answers `PKG_PAN` —
in particular scenario B's transmit log is exactly the identifier, `UPD_BEG`
and one copy of the first frame. -/
theorem claim_c3_first_failure_trace (N : Nat) (hN : 0 < N) (r0 : Option Nat)
    (p : List Nat) (ps : List (List Nat)) :
    uploadFirmware N (p :: ps) ⟨[r0, some PKG_ACK, some PKG_PAN], []⟩ =
      (.packetSendError 1 (ps.length + 1), ⟨[], [idBytes, [UPD_BEG], p]⟩)
    ∧ uploadFirmware N (p :: ps) ⟨r0 :: some PKG_ACK :: List.replicate N (some PKG_ERR), []⟩ =
      (.packetSendError 1 (ps.length + 1),
        ⟨[], [idBytes, [UPD_BEG]] ++ List.replicate N p ++ [[UPD_ERR]]⟩) :=
  ⟨uploadFirmware_first_abort N hN r0 p ps, uploadFirmware_first_exhaust N r0 p ps⟩

/-- Witness for the amended C3 at `N = 3`, two frames `[9, 9]` and `[8]`. -/
theorem claim_c3_first_failure_trace_witness :
    uploadFirmware 3 [[9, 9], [8]] ⟨[some 0, some PKG_ACK, some PKG_PAN], []⟩ =
      (.packetSendError 1 2, ⟨[], [idBytes, [UPD_BEG], [9, 9]]⟩) :=
  (claim_c3_first_failure_trace 3 (by decide) (some 0) [9, 9] [[8]]).1

/-- Counterexample to Claim C4: an empty source is not rejected —
`prepare_packets` returns the empty frame list (a trivially successful empty
transfer), raising nothing. -/
theorem claim_c4_empty_source_counterexample :
    preparePackets 4 [] = some [] := rfl

/-- Claim C4 as amended: `prepare_packets` performs neither validation — an
empty source yields the empty frame list whatever the chunk size, and a chunk
payload size of `0` makes the loop diverge on every non-empty source (for
every fuel bound the loop is still running), rather than raising
`ConfigurationError`. -/
theorem claim_c4_no_input_validation :
    (∀ (c fuel : Nat), prepareLoop c fuel [] = some [])
    ∧ (∀ (fuel : Nat) (data : List Nat), data ≠ [] → prepareLoop 0 fuel data = none) :=
  ⟨fun c fuel => prepareLoop_nil c fuel, fun fuel data h => prepareLoop_zero fuel data h⟩

/-- Witness for the amended C4. -/
theorem claim_c4_no_input_validation_witness :
    prepareLoop 3 0 [] = some [] ∧ prepareLoop 0 99 [5] = none :=
  ⟨claim_c4_no_input_validation.1 3 0, claim_c4_no_input_validation.2 99 [5] (by decide)⟩

/-- Counterexample to Claim C5: for the 10-byte source and `c = 4`, the
session metric `self.full_size` is 28, not 10 — the loop accumulates
`len(result[-1])`, the length of each whole frame including its 6-byte
header. -/
theorem claim_c5_full_size_counterexample :
    (preparePackets 4 src10).map fullSize = some 28 ∧ (28 : Nat) ≠ 10 := by decide

/-- Claim C5 as amended: for the 10-byte source and `c = 4` the frames have
payload lengths 4, 4, 2; a session whose receiver acks every byte ends in
`completed`; and the session metric `full_size` is `28 = 10 + 3 * 6`, the sum
of the whole frame lengths (header included), not the firmware byte count. -/
theorem claim_c5_scenario_a :
    ((preparePackets 4 src10).map fun ps => ps.map fun f => (payload f).length) =
      some [4, 4, 2]
    ∧ ((preparePackets 4 src10).map fun ps => (uploadFirmware 3 ps ⟨rxA, []⟩).1) =
        some UploadOutcome.completed
    ∧ (preparePackets 4 src10).map fullSize = some 28 := by decide

end BFU

namespace BFU

/-- Counterexample to Claim C6: the value returned to the caller is the same
`false` whether the receiver aborted (`PKG_PAN` on the first attempt) or the
retry budget was exhausted, so the abort is not distinguishable to the caller
from the attempts-exhausted case. -/
theorem claim_c6_report_counterexample :
    (sendPacket 3 [7] ⟨[some PKG_PAN], []⟩).1 = false
    ∧ (sendPacket 3 [7] ⟨[some PKG_ERR, some PKG_ERR, some PKG_ERR], []⟩).1 = false := by
  decide

/-- Claim C6 as amended: `PKG_PAN` on attempt `k < N` stops retrying
immediately — exactly `k` sends of the frame, no `UPD_ERR`, the rest of the
response script untouched — and `send_packet` returns `False`; but that
`False` is the same value returned in the attempts-exhausted case, so the
caller cannot distinguish the two (only the wire traffic differs). -/
theorem claim_c6_abort_immediate (N : Nat) (p : List Nat) (rs rest : List (Option Nat))
    (tx : List (List Nat))
    (hretry : ∀ r ∈ rs, r ≠ some PKG_ACK ∧ r ≠ some PKG_PAN) (hk : rs.length < N) :
    sendPacket N p ⟨rs ++ some PKG_PAN :: rest, tx⟩ =
      (false, ⟨rest, tx ++ List.replicate (rs.length + 1) p⟩)
    ∧ (sendPacket N p ⟨rs ++ some PKG_PAN :: rest, tx⟩).1 =
        (sendPacket N p ⟨List.replicate N (some PKG_ERR), tx⟩).1 := by
  have h1 := sendPacketLoop_abort rs N p rest tx hretry hk
  have h2 : sendPacketLoop p N ⟨List.replicate N (some PKG_ERR), tx⟩ =
      (false, ⟨[], tx ++ List.replicate N p ++ [[UPD_ERR]]⟩) := by
    have h := sendPacketLoop_all_retry (List.replicate N (some PKG_ERR)) p [] tx
      (by
        intro r hr
        rw [List.eq_of_mem_replicate hr]
        simp [PKG_ERR, PKG_ACK, PKG_PAN])
    simpa using h
  exact ⟨h1, by simp only [sendPacket, h1, h2]⟩

/-- Witness for the amended C6 at `N = 3`, abort on the second attempt. -/
theorem claim_c6_abort_immediate_witness :
    sendPacket 3 [7] ⟨[some 0, some PKG_PAN], []⟩ = (false, ⟨[], [[7], [7]]⟩)
    ∧ (sendPacket 3 [7] ⟨[some 0, some PKG_PAN], []⟩).1 =
        (sendPacket 3 [7] ⟨List.replicate 3 (some PKG_ERR), []⟩).1 :=
  claim_c6_abort_immediate 3 [7] [some 0] [] [] (by decide) (by decide)

/-- Claim C7: `send_packet` with budget `N` sends the frame at most `N` times
on any response script (the transmit log grows by at most `N` copies of the
frame plus possibly one `UPD_ERR` byte); a script of `N` responses that are
neither `PKG_ACK` nor `PKG_PAN` yields exactly `N` sends and a `False`
(attempts-exhausted) result; `PKG_ACK` on attempt `k ≤ N` yields `True` after
exactly `k` sends. -/
theorem claim_c7_retry_budget (N : Nat) (p : List Nat) :
    (∀ ch : Chan, ∃ k, k ≤ N ∧ ∃ e, (e = [] ∨ e = [[UPD_ERR]]) ∧
        (sendPacket N p ch).2.tx = ch.tx ++ List.replicate k p ++ e)
    ∧ (∀ rs : List (Option Nat),
        (∀ r ∈ rs, r ≠ some PKG_ACK ∧ r ≠ some PKG_PAN) → rs.length = N →
        sendPacket N p ⟨rs, []⟩ = (false, ⟨[], List.replicate N p ++ [[UPD_ERR]]⟩))
    ∧ (∀ (rs rest : List (Option Nat)),
        (∀ r ∈ rs, r ≠ some PKG_ACK ∧ r ≠ some PKG_PAN) → rs.length < N →
        sendPacket N p ⟨rs ++ some PKG_ACK :: rest, []⟩ =
          (true, ⟨rest, List.replicate (rs.length + 1) p⟩)) := by
  refine ⟨fun ch => sendPacketLoop_tx_shape N p ch, ?_, ?_⟩
  · intro rs h hlen
    subst hlen
    have h1 := sendPacketLoop_all_retry rs p [] [] h
    simpa [sendPacket] using h1
  · intro rs rest h hlen
    have h1 := sendPacketLoop_ack rs N p rest [] h hlen
    simpa [sendPacket] using h1

/-- Witness for C7 at `N = 2`: a retry-only script, and an ack on the second
attempt. -/
theorem claim_c7_retry_budget_witness :
    (∃ k, k ≤ 2 ∧ ∃ e, (e = [] ∨ e = [[UPD_ERR]]) ∧
        (sendPacket 2 [7] ⟨[some 0, some 0], []⟩).2.tx = [] ++ List.replicate k [7] ++ e)
    ∧ sendPacket 2 [7] ⟨[some 0, some 0], []⟩ =
        (false, ⟨[], List.replicate 2 [7] ++ [[UPD_ERR]]⟩)
    ∧ sendPacket 2 [7] ⟨[some 0, some PKG_ACK], []⟩ = (true, ⟨[], List.replicate 2 [7]⟩) :=
  ⟨(claim_c7_retry_budget 2 [7]).1 ⟨[some 0, some 0], []⟩,
   (claim_c7_retry_budget 2 [7]).2.1 [some 0, some 0] (by decide) rfl,
   (claim_c7_retry_budget 2 [7]).2.2 [some 0] [] (by decide) (by decide)⟩

end BFU

namespace BFU

/-- Claim C8: every frame produced by `prepare_packets` is the 2-byte
little-endian payload length, then the 4-byte little-endian CRC-32 of the
payload, then the payload; the stored length decodes to the payload's length
and the stored checksum decodes to the CRC-32 recomputed over the payload.
Stated for byte-valued sources and `c < 2 ^ 16`, the range in which Python's
`int.to_bytes` does not raise. -/
theorem claim_c8_frame_wire_layout (c : Nat) (data : List Nat)
    (frames : List (List Nat)) (f : List Nat)
    (hbytes : ∀ b ∈ data, b < 256) (hc : c < 65536)
    (hp : preparePackets c data = some frames) (hf : f ∈ frames) :
    f = toBytesLE PKG_SIZE (payload f).length ++
        toBytesLE CRC_SIZE (crc32 (payload f)) ++ payload f
    ∧ fromBytesLE (f.take PKG_SIZE) = (payload f).length
    ∧ fromBytesLE ((f.drop PKG_SIZE).take CRC_SIZE) = crc32 (payload f) := by
  obtain ⟨dat, hlen, hsub, hform⟩ := prepareLoop_shape data.length c data frames hp f hf
  have hpay : payload f = dat := by rw [hform, payload_mkFrame]
  have hlenb : dat.length < 256 ^ PKG_SIZE := by
    have hpow : (256 : Nat) ^ PKG_SIZE = 65536 := by norm_num [PKG_SIZE]
    omega
  have hcrcb : crc32 dat < 256 ^ CRC_SIZE := by
    have h1 := crc32_lt dat (fun b hb => hbytes b (hsub hb))
    have hpow : (256 : Nat) ^ CRC_SIZE = 4294967296 := by norm_num [CRC_SIZE]
    have hpow2 : (2 : Nat) ^ 32 = 4294967296 := by norm_num
    omega
  refine ⟨?_, ?_, ?_⟩
  · rw [hpay, hform]
    rfl
  · rw [hpay, hform, take_mkFrame, fromBytesLE_toBytesLE _ _ hlenb]
  · rw [hpay, hform, crcField_mkFrame, fromBytesLE_toBytesLE _ _ hcrcb]

/-- Witness for C8: the first frame built from the concrete 10-byte source at
`c = 4`. -/
theorem claim_c8_frame_wire_layout_witness :
    ((preparePackets 4 src10).getD []).headI =
      toBytesLE PKG_SIZE (payload (((preparePackets 4 src10).getD []).headI)).length ++
      toBytesLE CRC_SIZE (crc32 (payload (((preparePackets 4 src10).getD []).headI))) ++
      payload (((preparePackets 4 src10).getD []).headI)
    ∧ fromBytesLE ((((preparePackets 4 src10).getD []).headI).take PKG_SIZE) =
        (payload (((preparePackets 4 src10).getD []).headI)).length
    ∧ fromBytesLE (((((preparePackets 4 src10).getD []).headI).drop PKG_SIZE).take CRC_SIZE) =
        crc32 (payload (((preparePackets 4 src10).getD []).headI)) :=
  claim_c8_frame_wire_layout 4 src10 ((preparePackets 4 src10).getD [])
    (((preparePackets 4 src10).getD []).headI)
    (by decide) (by decide) (by decide) (by decide)

/-- Claim C9 (code bug): `check_size` accepts 6 although 6 bytes leave no
payload after the frame overhead; the derived chunk payload size is then 0 and
the `prepare_packets` loop never terminates on a non-empty source (it is still
running at every fuel bound). -/
theorem claim_c9_size_validation_gap :
    check_size 6 = Except.ok 6
    ∧ initPacksize (mainUpdaterKwargs 0 6) = 0
    ∧ ∀ fuel : Nat, prepareLoop 0 fuel [1] = none :=
  ⟨rfl, rfl, fun fuel => prepareLoop_zero fuel [1] (by decide)⟩

/-- Claim C10 (code bug): `main` constructs the updater without forwarding the
parsed `--attemtps` value, so `FirmwareUpdater.__init__` always falls back to
its `kwargs.pop('attempts', 3)` default — the per-frame retry budget is 3
whatever the flag said. -/
theorem claim_c10_attempts_flag_dropped :
    initAttempts (mainUpdaterKwargs 0 512) = 3
    ∧ ∀ (argsVerbose argsPacksize : Int),
        initAttempts (mainUpdaterKwargs argsVerbose argsPacksize) = 3 :=
  ⟨rfl, fun _ _ => rfl⟩

end BFU
